import Mathlib

/-!
Verification of the ragnarok frontend against its specification.

The development shallowly embeds the TypeScript source:
pure helpers become Lean functions, React component state becomes
explicit state records, event handlers become state-transition
functions, and HTTP calls become request values handed to an
abstract transport whose outcome is a parameter.
-/

namespace Ragnarok

/-! ### The JavaScript string trim method -/

/-- Embedding of the JavaScript string method trim on character lists:
whitespace is removed from both ends. -/
def trimChars (l : List Char) : List Char :=
  ((l.dropWhile Char.isWhitespace).reverse.dropWhile Char.isWhitespace).reverse

/-- Embedding of the JavaScript string method trim. -/
def jsTrim (s : String) : String :=
  String.mk (trimChars s.data)

/-! ### Data model (frontend/src/services/api.ts) -/

/-- Message role: the union type user | assistant. -/
inductive Role where
  | user
  | assistant
  deriving DecidableEq, Repr

/-- The Message interface of api.ts. -/
structure Message where
  id : String
  role : Role
  content : String
  sources : List String
  created_at : String
  deriving DecidableEq, Repr

/-- The Chat interface of api.ts. -/
structure Chat where
  id : String
  project_id : String
  title : String
  created_at : String
  updated_at : String
  deriving DecidableEq, Repr

/-- The Project interface of api.ts. -/
structure Project where
  id : String
  name : String
  description : Option String
  urls : List String
  created_at : String
  updated_at : String
  deriving DecidableEq, Repr

/-- The QueryResponse interface of api.ts: exactly the three fields
answer, sources and message id. -/
structure QueryResponse where
  answer : String
  sources : List String
  message_id : String
  deriving DecidableEq, Repr

/-- The request body sent by queryRAG in api.ts. -/
structure QueryRequestBody where
  chat_id : String
  question : String
  deriving DecidableEq, Repr

/-- Embedding of queryRAG in api.ts: it posts the body
with fields chat id and question to the endpoint /query.  The value
is the pair of the endpoint path and the posted body. -/
def queryRAG (chatId question : String) : String × QueryRequestBody :=
  ("/query", { chat_id := chatId, question := question })

/-! ### Chat interface (frontend/src/components/ProjectChatInterface.tsx) -/

namespace ProjectChatInterface

/-- The React state of the ProjectChatInterface component. -/
structure State where
  chats : List Chat
  currentChat : Option Chat
  messages : List Message
  currentMessage : String
  loading : Bool
  deriving DecidableEq, Repr

/-- The useState initial values of the component. -/
def initialState : State :=
  { chats := [], currentChat := none, messages := [],
    currentMessage := "", loading := false }

/-- The onChange handler of the message textarea. -/
def typeMessage (s : State) (text : String) : State :=
  { s with currentMessage := text }

/-- Embedding of loadMessages: on success the fetched list replaces the
transcript; on failure (none) the handler only logs and the state is
unchanged. -/
def loadMessages (s : State) (fetched : Option (List Message)) : State :=
  match fetched with
  | some messageList => { s with messages := messageList }
  | none => s

/-- Embedding of createNewChat: the server reply (a function of the
submitted title) is placed at the head of the chat list, selected as
current, and the transcript is cleared.  On failure (serverChat = none)
the handler only logs and the state is unchanged. -/
def createNewChat (s : State) (serverChat : Option (String → Chat)) : State :=
  match serverChat with
  | some mk =>
      let title := "Chat " ++ toString (s.chats.length + 1)
      let newChat := mk title
      { s with chats := newChat :: s.chats, currentChat := some newChat,
               messages := [] }
  | none => s

/-- Embedding of switchChat. -/
def switchChat (s : State) (chat : Chat) : State :=
  { s with currentChat := some chat, messages := [] }

/-- Outcome of the awaited queryRAG promise: either the response value or
a rejection carrying the error message (none when the thrown value is not
an Error instance). -/
inductive QueryOutcome where
  | success (resp : QueryResponse)
  | failure (errMessage : Option String)

/-- Embedding of handleSubmit of ProjectChatInterface.  Date.now() is
modelled by nowMs and new Date().toISOString() by nowIso; the awaited
queryRAG call is modelled by its outcome. -/
def handleSubmit (s : State) (nowMs : Nat) (nowIso : String)
    (outcome : QueryOutcome) : State :=
  if jsTrim s.currentMessage = "" ∨ s.loading = true ∨ s.currentChat = none then s
  else
    match s.currentChat with
    | none => s
    | some cur =>
      let userMessage : Message :=
        { id := toString nowMs, role := .user, content := s.currentMessage,
          sources := [], created_at := nowIso }
      let afterUser : State :=
        { s with messages := s.messages ++ [userMessage],
                 currentMessage := "", loading := true }
      match outcome with
      | .success resp =>
          let assistantMessage : Message :=
            { id := resp.message_id, role := .assistant, content := resp.answer,
              sources := resp.sources, created_at := nowIso }
          { afterUser with
            messages := afterUser.messages ++ [assistantMessage],
            chats := cur :: afterUser.chats.filter (fun c => c.id ≠ cur.id),
            loading := false }
      | .failure err =>
          let errorMessage : Message :=
            { id := toString (nowMs + 1), role := .assistant,
              content := "Sorry, I encountered an error: " ++
                err.getD "Unknown error",
              sources := [], created_at := nowIso }
          { afterUser with
            messages := afterUser.messages ++ [errorMessage],
            loading := false }

end ProjectChatInterface

/-! ### Project creation form (frontend/src/components/CreateProject.tsx) -/

/-- The request body posted by createProject in api.ts. -/
structure CreateProjectRequest where
  name : String
  description : String
  urls : List String
  deriving DecidableEq, Repr

namespace CreateProject

/-- The React state of the CreateProject component. -/
structure State where
  name : String
  description : String
  urls : List String
  currentUrl : String
  loading : Bool
  error : Option String
  deriving DecidableEq, Repr

/-- The useState initial values of the component; note the urls list
starts as a singleton blank entry. -/
def initialState : State :=
  { name := "", description := "", urls := [""], currentUrl := "",
    loading := false, error := none }

/-- The urls list produced by addURL when the pending text is non-blank:
blank entries are filtered out and the trimmed pending text is appended. -/
def addURLList (urls : List String) (currentUrl : String) : List String :=
  urls.filter (fun u => jsTrim u ≠ "") ++ [jsTrim currentUrl]

/-- Embedding of addURL. -/
def addURL (s : State) : State :=
  if jsTrim s.currentUrl ≠ "" then
    { s with urls := addURLList s.urls s.currentUrl, currentUrl := "" }
  else s

/-- The urls list produced by removeURL: the entry at the given position
is dropped. -/
def removeURLList (urls : List String) (index : Nat) : List String :=
  (urls.enum.filter (fun p => p.1 ≠ index)).map Prod.snd

/-- Embedding of removeURL. -/
def removeURL (s : State) (index : Nat) : State :=
  { s with urls := removeURLList s.urls index }

/-- Outcome of the awaited createProject promise: ok, or a rejection
carrying the error message (none when the thrown value is not an Error
instance). -/
inductive CreateOutcome where
  | ok
  | err (message : Option String)

/-- Embedding of handleSubmit of CreateProject.  The value is the
resulting state paired with the createProject request body the handler
posted, if any. -/
def handleSubmit (s : State) (outcome : CreateOutcome) :
    State × Option CreateProjectRequest :=
  if jsTrim s.name = "" then
    ({ s with error := some "Project name is required" }, none)
  else
    let validUrls := s.urls.filter (fun u => jsTrim u ≠ "")
    if validUrls.length = 0 ∧ jsTrim s.currentUrl = "" then
      ({ s with error := some "At least one URL is required" }, none)
    else
      let finalUrls :=
        if jsTrim s.currentUrl ≠ "" then validUrls ++ [jsTrim s.currentUrl]
        else validUrls
      let req : CreateProjectRequest :=
        { name := jsTrim s.name, description := jsTrim s.description,
          urls := finalUrls }
      match outcome with
      | .ok => ({ s with loading := false, error := none }, some req)
      | .err m =>
          ({ s with
              loading := false,
              error := some (m.getD "Failed to create project") }, some req)

/-- Embedding of handleUseDefaults of CreateProject. -/
def handleUseDefaults (s : State) (outcome : CreateOutcome) :
    State × Option CreateProjectRequest :=
  if jsTrim s.name = "" then
    ({ s with error := some "Project name is required" }, none)
  else
    let req : CreateProjectRequest :=
      { name := jsTrim s.name, description := jsTrim s.description, urls := [] }
    match outcome with
    | .ok => ({ s with loading := false, error := none }, some req)
    | .err m =>
        ({ s with
            loading := false,
            error := some (m.getD "Failed to create project") }, some req)

/-- The urls lists reachable in the CreateProject component: the initial
singleton blank entry, transformed by any interleaving of addURL (with an
arbitrary pending text) and removeURL (with an arbitrary position). -/
inductive UrlsReachable : List String → Prop where
  | init : UrlsReachable [""]
  | add (urls : List String) (cur : String) (h : UrlsReachable urls)
      (hcur : jsTrim cur ≠ "") : UrlsReachable (addURLList urls cur)
  | remove (urls : List String) (index : Nat) (h : UrlsReachable urls) :
      UrlsReachable (removeURLList urls index)

end CreateProject

/-! ### Retrieval engine

Modelled from the spec: the backend module implementing the Retrieval
Engine (rag_model.py) is not among the available source files, so the
definitions below follow section 4.3 of the specification. -/

/-- Modelled from the spec: a chunk record (text fragment, owning
project, source URL, embedding vector); embeddings are modelled as
rational vectors of the provider-defined dimensionality. -/
structure Chunk where
  id : Nat
  project_id : String
  source_url : String
  text : String
  embedding : List ℚ
  deriving DecidableEq, Repr

/-- Descending-score comparison on scored chunks: a precedes b when the
score of a is at least the score of b. -/
def scoreGe (a b : Chunk × ℚ) : Prop := b.2 ≤ a.2

instance : DecidableRel scoreGe := fun a b =>
  decidable_of_iff (b.2 ≤ a.2) Iff.rfl

instance : IsTotal (Chunk × ℚ) scoreGe := ⟨fun a b => le_total b.2 a.2⟩

instance : IsTrans (Chunk × ℚ) scoreGe := ⟨fun _ _ _ hab hbc => le_trans hbc hab⟩

/-- Modelled from the spec: every chunk of the index paired with its
similarity score against the embedded query.  The query embedding is
produced by the Model Provider (parameter embedQuery) and the similarity
is cosine similarity, computed by provider-backed code that is likewise
outside the available sources; it is abstracted as the parameter sim,
on whose values the ordering contract does not depend. -/
def scoredChunks (sim : List ℚ → List ℚ → ℚ) (embedQuery : String → List ℚ)
    (index : List Chunk) (query_text : String) : List (Chunk × ℚ) :=
  let qEmb := embedQuery query_text
  index.map (fun c => (c, sim qEmb c.embedding))

/-- Modelled from the spec: the scored chunks in descending score order;
the sort is stable, so equal scores keep original insertion order. -/
def rankedChunks (sim : List ℚ → List ℚ → ℚ) (embedQuery : String → List ℚ)
    (index : List Chunk) (query_text : String) : List (Chunk × ℚ) :=
  (scoredChunks sim embedQuery index query_text).insertionSort scoreGe

/-- Modelled from the spec: retrieve returns the top k scored chunks by
descending similarity, ties broken by insertion order; an index with
zero chunks yields the empty sequence. -/
def retrieve (sim : List ℚ → List ℚ → ℚ) (embedQuery : String → List ℚ)
    (index : List Chunk) (query_text : String) (k : Nat) : List (Chunk × ℚ) :=
  (rankedChunks sim embedQuery index query_text).take k

/-! ### Concrete sample data -/

/-- A sample chat record. -/
def sampleChat : Chat :=
  { id := "c1", project_id := "p1", title := "Chat 1",
    created_at := "t0", updated_at := "t0" }

/-- A second sample chat record with a distinct id. -/
def sampleChatB : Chat :=
  { id := "c2", project_id := "p1", title := "Chat 2",
    created_at := "t1", updated_at := "t1" }

/-- A sample successful query response. -/
def sampleResp : QueryResponse :=
  { answer := "ans", sources := ["https://a"], message_id := "m1" }

/-- A sample chat-interface state ready to submit a query. -/
def sampleChatState : ProjectChatInterface.State :=
  { chats := [sampleChat], currentChat := some sampleChat, messages := [],
    currentMessage := "hi", loading := false }

/-- A sample create-project form state with one added URL and a pending
untrimmed URL in the input box. -/
def sampleCreateState : CreateProject.State :=
  { name := "Docs", description := "d", urls := ["https://a"],
    currentUrl := " https://b ", loading := false, error := none }

/-- A sample create-project form state whose name is blank after
trimming. -/
def sampleBlankNameState : CreateProject.State :=
  { name := " ", description := "", urls := [""], currentUrl := "",
    loading := false, error := none }

/-- A sample chunk whose embedding is the vector (1). -/
def sampleChunk1 : Chunk :=
  { id := 1, project_id := "p1", source_url := "https://u1", text := "t1",
    embedding := [1] }

/-- A sample chunk whose embedding is the vector (2). -/
def sampleChunk2 : Chunk :=
  { id := 2, project_id := "p1", source_url := "https://u2", text := "t2",
    embedding := [2] }

/-- A sample similarity function reading off the head of the chunk
embedding. -/
def sampleSim : List ℚ → List ℚ → ℚ := fun _ e => e.headD 0

/-- A sample query embedder. -/
def sampleEmbed : String → List ℚ := fun _ => []

/-! ### Lemmas about the JavaScript trim model -/

theorem dropWhile_head?_not {α : Type} (p : α → Bool) :
    ∀ (l : List α) (a : α), (l.dropWhile p).head? = some a → p a = false := by
  intro l
  induction l with
  | nil => intro a h; simp [List.dropWhile] at h
  | cons x t ih =>
    intro a h
    by_cases hx : p x
    · rw [List.dropWhile_cons_of_pos hx] at h
      exact ih a h
    · rw [List.dropWhile_cons_of_neg hx] at h
      simp at h
      rw [← h]
      simpa using hx

theorem getLast?_dropWhile {α : Type} (p : α → Bool) :
    ∀ l : List α, l.dropWhile p ≠ [] → (l.dropWhile p).getLast? = l.getLast? := by
  intro l
  induction l with
  | nil => intro h; simp [List.dropWhile] at h
  | cons x t ih =>
    intro h
    by_cases hx : p x
    · rw [List.dropWhile_cons_of_pos hx] at h ⊢
      have ht : t ≠ [] := by
        intro hnil
        rw [hnil] at h
        simp [List.dropWhile] at h
      rw [ih h]
      cases t with
      | nil => exact absurd rfl ht
      | cons y t2 => rw [List.getLast?_cons_cons]
    · rw [List.dropWhile_cons_of_neg hx]

theorem trimChars_head?_not (l : List Char) (a : Char)
    (h : (trimChars l).head? = some a) : a.isWhitespace = false := by
  unfold trimChars at h
  rw [List.head?_reverse] at h
  have hne :
      (List.dropWhile Char.isWhitespace
        (List.dropWhile Char.isWhitespace l).reverse) ≠ [] := by
    intro hnil
    rw [hnil] at h
    simp at h
  rw [getLast?_dropWhile _ _ hne, List.getLast?_reverse] at h
  exact dropWhile_head?_not _ _ _ h

theorem dropWhile_trimChars (l : List Char) :
    (trimChars l).dropWhile Char.isWhitespace = trimChars l := by
  cases htc : trimChars l with
  | nil => rfl
  | cons a t =>
    have ha : a.isWhitespace = false :=
      trimChars_head?_not l a (by rw [htc]; rfl)
    rw [List.dropWhile_cons_of_neg (by simp [ha])]

theorem trimChars_idem (l : List Char) :
    trimChars (trimChars l) = trimChars l := by
  conv_lhs => rw [trimChars, dropWhile_trimChars]
  rw [show (trimChars l).reverse =
        List.dropWhile Char.isWhitespace
          (List.dropWhile Char.isWhitespace l).reverse from by
    rw [trimChars]; exact List.reverse_reverse _]
  rw [List.dropWhile_idempotent]
  rfl

theorem jsTrim_idem (s : String) : jsTrim (jsTrim s) = jsTrim s := by
  unfold jsTrim
  rw [show (String.mk (trimChars s.data)).data = trimChars s.data from rfl,
    trimChars_idem]

/-! ### Stability of the descending sort -/

theorem orderedInsert_filter_eq (x : Chunk × ℚ) (s : ℚ) (hx : x.2 = s) :
    ∀ l : List (Chunk × ℚ),
      (List.orderedInsert scoreGe x l).filter (fun p => decide (p.2 = s)) =
        x :: l.filter (fun p => decide (p.2 = s))
  | [] => by simp [hx]
  | b :: t => by
    by_cases hb : scoreGe x b
    · simp only [List.orderedInsert, if_pos hb]
      rw [List.filter_cons_of_pos (by simp [hx])]
    · have hbs : b.2 ≠ s := by
        intro hc
        exact hb (by simp only [scoreGe, hc, hx]; exact le_refl s)
      simp only [List.orderedInsert, if_neg hb]
      rw [List.filter_cons_of_neg (by simp [hbs]),
        orderedInsert_filter_eq x s hx t,
        List.filter_cons_of_neg (by simp [hbs])]

theorem orderedInsert_filter_ne (x : Chunk × ℚ) (s : ℚ) (hx : x.2 ≠ s) :
    ∀ l : List (Chunk × ℚ),
      (List.orderedInsert scoreGe x l).filter (fun p => decide (p.2 = s)) =
        l.filter (fun p => decide (p.2 = s))
  | [] => by simp [hx]
  | b :: t => by
    by_cases hb : scoreGe x b
    · simp only [List.orderedInsert, if_pos hb]
      rw [List.filter_cons_of_neg (by simp [hx])]
    · simp only [List.orderedInsert, if_neg hb]
      rw [List.filter_cons, List.filter_cons,
        orderedInsert_filter_ne x s hx t]

theorem insertionSort_filter (s : ℚ) :
    ∀ l : List (Chunk × ℚ),
      (l.insertionSort scoreGe).filter (fun p => decide (p.2 = s)) =
        l.filter (fun p => decide (p.2 = s))
  | [] => rfl
  | a :: t => by
    rw [show (a :: t).insertionSort scoreGe =
        List.orderedInsert scoreGe a (t.insertionSort scoreGe) from rfl]
    by_cases ha : a.2 = s
    · rw [orderedInsert_filter_eq a s ha _, insertionSort_filter s t,
        List.filter_cons_of_pos (by simp [ha])]
    · rw [orderedInsert_filter_ne a s ha _, insertionSort_filter s t,
        List.filter_cons_of_neg (by simp [ha])]

/-! ### Evaluation lemmas for the chat submit handler -/

theorem ProjectChatInterface.handleSubmit_failure
    (s : ProjectChatInterface.State) (cur : Chat) (nowMs : Nat)
    (nowIso : String) (err : Option String)
    (hmsg : jsTrim s.currentMessage ≠ "") (hload : s.loading = false)
    (hcur : s.currentChat = some cur) :
    ProjectChatInterface.handleSubmit s nowMs nowIso (.failure err) =
      { s with
        messages := s.messages ++
          [{ id := toString nowMs, role := .user, content := s.currentMessage,
             sources := [], created_at := nowIso },
           { id := toString (nowMs + 1), role := .assistant,
             content := "Sorry, I encountered an error: " ++
               err.getD "Unknown error",
             sources := [], created_at := nowIso }],
        currentMessage := "", loading := false } := by
  unfold ProjectChatInterface.handleSubmit
  rw [if_neg (by simp [hmsg, hload, hcur]), hcur]
  simp

theorem ProjectChatInterface.handleSubmit_success
    (s : ProjectChatInterface.State) (cur : Chat) (nowMs : Nat)
    (nowIso : String) (resp : QueryResponse)
    (hmsg : jsTrim s.currentMessage ≠ "") (hload : s.loading = false)
    (hcur : s.currentChat = some cur) :
    ProjectChatInterface.handleSubmit s nowMs nowIso (.success resp) =
      { s with
        messages := s.messages ++
          [{ id := toString nowMs, role := .user, content := s.currentMessage,
             sources := [], created_at := nowIso },
           { id := resp.message_id, role := .assistant, content := resp.answer,
             sources := resp.sources, created_at := nowIso }],
        chats := cur :: s.chats.filter (fun c => c.id ≠ cur.id),
        currentMessage := "", loading := false } := by
  unfold ProjectChatInterface.handleSubmit
  rw [if_neg (by simp [hmsg, hload, hcur]), hcur]
  simp

/-! ### Claim C1 -/

/-- C1: when the queryRAG promise of a submitted query rejects, the chat
interface appends the user turn followed by exactly one assistant-role
message whose content is the human-readable error description and whose
sources list is empty; the handler still completes normally (it returns a
state with loading reset, rather than failing the turn). -/
theorem C1_query_failure_becomes_message
    (s : ProjectChatInterface.State) (cur : Chat) (nowMs : Nat)
    (nowIso : String) (err : Option String)
    (hmsg : jsTrim s.currentMessage ≠ "") (hload : s.loading = false)
    (hcur : s.currentChat = some cur) :
    ∃ u e : Message,
      (ProjectChatInterface.handleSubmit s nowMs nowIso (.failure err)).messages
        = s.messages ++ [u, e] ∧
      u.role = Role.user ∧
      e.role = Role.assistant ∧
      e.sources = [] ∧
      e.content = "Sorry, I encountered an error: " ++ err.getD "Unknown error" ∧
      (ProjectChatInterface.handleSubmit s nowMs nowIso (.failure err)).loading
        = false := by
  rw [ProjectChatInterface.handleSubmit_failure s cur nowMs nowIso err
    hmsg hload hcur]
  exact ⟨_, _, rfl, rfl, rfl, rfl, rfl, rfl⟩

/-- Witness for C1 on a concrete state. -/
theorem C1_query_failure_becomes_message_witness :
    ∃ u e : Message,
      (ProjectChatInterface.handleSubmit sampleChatState 5 "t2"
          (.failure (some "boom"))).messages = sampleChatState.messages ++ [u, e] ∧
      u.role = Role.user ∧
      e.role = Role.assistant ∧
      e.sources = [] ∧
      e.content = "Sorry, I encountered an error: " ++
        (some "boom").getD "Unknown error" ∧
      (ProjectChatInterface.handleSubmit sampleChatState 5 "t2"
          (.failure (some "boom"))).loading = false :=
  C1_query_failure_becomes_message sampleChatState sampleChat 5 "t2"
    (some "boom") (by decide) rfl rfl

/-! ### Claim C6 -/

/-- C6: queryRAG takes exactly a chat id and a question, posts a body
holding exactly those two values under the field names chat id and
question to the /query endpoint, and a successful QueryResponse value is
determined by exactly its three fields answer, sources and message id. -/
theorem C6_query_shape (chatId question : String) :
    (queryRAG chatId question).1 = "/query" ∧
    (queryRAG chatId question).2 = { chat_id := chatId, question := question } ∧
    (∀ r : QueryResponse, r = ⟨r.answer, r.sources, r.message_id⟩) :=
  ⟨rfl, rfl, fun _ => rfl⟩

/-! ### Claim C5 -/

/-- C5: retrieve returns its scored-chunk sequence with scores in
non-increasing order; the ranked sequence is a permutation of the scored
index of which retrieve returns the first k, every returned element
scores at least every element ranked beyond k (top k by descending
score), ties keep original chunk insertion order (restricting the ranked
sequence to any fixed score yields exactly the scored index restricted
to that score, in order), and an index with zero chunks yields the empty
sequence rather than an error. -/
theorem C5_retrieve_contract (sim : List ℚ → List ℚ → ℚ)
    (embedQuery : String → List ℚ) (index : List Chunk)
    (query_text : String) (k : Nat) :
    retrieve sim embedQuery [] query_text k = [] ∧
    (retrieve sim embedQuery index query_text k).Sorted scoreGe ∧
    List.Perm (rankedChunks sim embedQuery index query_text)
      (scoredChunks sim embedQuery index query_text) ∧
    (∀ x ∈ retrieve sim embedQuery index query_text k,
      ∀ y ∈ (rankedChunks sim embedQuery index query_text).drop k,
        scoreGe x y) ∧
    (∀ s : ℚ,
      (rankedChunks sim embedQuery index query_text).filter
          (fun p => decide (p.2 = s)) =
        (scoredChunks sim embedQuery index query_text).filter
          (fun p => decide (p.2 = s))) := by
  refine ⟨by simp [retrieve, rankedChunks, scoredChunks], ?_, ?_, ?_, ?_⟩
  · exact List.Pairwise.sublist (List.take_sublist k _)
      (List.sorted_insertionSort scoreGe _)
  · exact List.perm_insertionSort scoreGe _
  · intro x hx y hy
    exact (List.sorted_insertionSort scoreGe _).rel_of_mem_take_of_mem_drop hx hy
  · intro s
    exact insertionSort_filter s _

/-- Witness for C5 on a concrete two-chunk index: the returned top
element scores at least the dropped one. -/
theorem C5_retrieve_contract_witness :
    scoreGe (sampleChunk2, (2 : ℚ)) (sampleChunk1, (1 : ℚ)) :=
  (C5_retrieve_contract sampleSim sampleEmbed [sampleChunk1, sampleChunk2]
      "q" 1).2.2.2.1
    (sampleChunk2, (2 : ℚ)) (by decide) (sampleChunk1, (1 : ℚ)) (by decide)

/-! ### Claim C3 -/

/-- C3: the interface keeps the chat list in descending-recency order:
createNewChat places the created chat at the head; a successful query in
the current chat moves it to the front with the other chats keeping
their previous relative order; in particular after creating chat A, then
chat B, then sending a message in A, the list is A followed by B. -/
theorem C3_chat_list_order (s : ProjectChatInterface.State) (cur : Chat)
    (nowMs : Nat) (nowIso : String) (resp : QueryResponse)
    (hmsg : jsTrim s.currentMessage ≠ "") (hload : s.loading = false)
    (hcur : s.currentChat = some cur) :
    (∀ mk : String → Chat,
      (ProjectChatInterface.createNewChat s (some mk)).chats =
        mk ("Chat " ++ toString (s.chats.length + 1)) :: s.chats) ∧
    ((ProjectChatInterface.handleSubmit s nowMs nowIso (.success resp)).chats =
      cur :: s.chats.filter (fun c => c.id ≠ cur.id)) ∧
    (∀ (A B : Chat) (q : String), A.id ≠ B.id → jsTrim q ≠ "" →
      (ProjectChatInterface.handleSubmit
          (ProjectChatInterface.typeMessage
            (ProjectChatInterface.switchChat
              (ProjectChatInterface.createNewChat
                (ProjectChatInterface.createNewChat
                  ProjectChatInterface.initialState (some (fun _ => A)))
                (some (fun _ => B)))
              A)
            q)
          nowMs nowIso (.success resp)).chats = [A, B]) := by
  refine ⟨fun mk => rfl, ?_, ?_⟩
  · rw [ProjectChatInterface.handleSubmit_success s cur nowMs nowIso resp
      hmsg hload hcur]
  · intro A B q hne hq
    rw [ProjectChatInterface.handleSubmit_success _ A nowMs nowIso resp
      hq rfl rfl]
    simp [ProjectChatInterface.createNewChat, ProjectChatInterface.switchChat,
      ProjectChatInterface.typeMessage, ProjectChatInterface.initialState,
      List.filter, Ne.symm hne]

/-- Witness for C3: creating chat c1, then chat c2, then sending a
message in c1 leaves the list as c1 followed by c2. -/
theorem C3_chat_list_order_witness :
    (ProjectChatInterface.handleSubmit
        (ProjectChatInterface.typeMessage
          (ProjectChatInterface.switchChat
            (ProjectChatInterface.createNewChat
              (ProjectChatInterface.createNewChat
                ProjectChatInterface.initialState (some (fun _ => sampleChat)))
              (some (fun _ => sampleChatB)))
            sampleChat)
          "hi")
        5 "t2" (.success sampleResp)).chats = [sampleChat, sampleChatB] :=
  (C3_chat_list_order sampleChatState sampleChat 5 "t2" sampleResp
      (by decide) rfl rfl).2.2
    sampleChat sampleChatB "hi" (by decide) (by decide)

/-! ### Claim C4 -/

/-- C4: the transcript is kept in ascending chronological order: a
successful loadMessages replaces the transcript with the fetched list in
its given order, and every query turn appends first the user message and
then the assistant (or error) message after all existing messages,
leaving the earlier messages untouched. -/
theorem C4_transcript_append (s : ProjectChatInterface.State) (cur : Chat)
    (nowMs : Nat) (nowIso : String)
    (hmsg : jsTrim s.currentMessage ≠ "") (hload : s.loading = false)
    (hcur : s.currentChat = some cur) :
    (∀ messageList,
      (ProjectChatInterface.loadMessages s (some messageList)).messages =
        messageList) ∧
    (∀ outcome, ∃ u a : Message,
      (ProjectChatInterface.handleSubmit s nowMs nowIso outcome).messages =
        s.messages ++ [u, a] ∧
      u.role = Role.user ∧ u.content = s.currentMessage ∧
      a.role = Role.assistant) := by
  refine ⟨fun _ => rfl, fun outcome => ?_⟩
  cases outcome with
  | success resp =>
      rw [ProjectChatInterface.handleSubmit_success s cur nowMs nowIso resp
        hmsg hload hcur]
      exact ⟨_, _, rfl, rfl, rfl, rfl⟩
  | failure err =>
      rw [ProjectChatInterface.handleSubmit_failure s cur nowMs nowIso err
        hmsg hload hcur]
      exact ⟨_, _, rfl, rfl, rfl, rfl⟩

/-- Witness for C4 on a concrete state and a successful outcome. -/
theorem C4_transcript_append_witness :
    ∃ u a : Message,
      (ProjectChatInterface.handleSubmit sampleChatState 5 "t2"
          (.success sampleResp)).messages =
        sampleChatState.messages ++ [u, a] ∧
      u.role = Role.user ∧ u.content = sampleChatState.currentMessage ∧
      a.role = Role.assistant :=
  (C4_transcript_append sampleChatState sampleChat 5 "t2"
      (by decide) rfl rfl).2 (.success sampleResp)

/-! ### Claim C7 -/

/-- C7: among the messages a chat submit appends to the transcript, every
user-role message has an empty sources list; only the assistant messages
may carry source URLs. -/
theorem C7_user_messages_no_sources (s : ProjectChatInterface.State)
    (nowMs : Nat) (nowIso : String)
    (outcome : ProjectChatInterface.QueryOutcome) :
    ∀ m ∈ ((ProjectChatInterface.handleSubmit s nowMs nowIso
        outcome).messages).drop s.messages.length,
      m.role = Role.user → m.sources = [] := by
  by_cases hguard : jsTrim s.currentMessage = "" ∨ s.loading = true ∨
      s.currentChat = none
  · intro m hm
    unfold ProjectChatInterface.handleSubmit at hm
    rw [if_pos hguard, List.drop_length] at hm
    exact absurd hm (List.not_mem_nil m)
  · push_neg at hguard
    obtain ⟨hmsg, hload, hcur⟩ := hguard
    have hload2 : s.loading = false := by
      cases h : s.loading
      · rfl
      · exact absurd h hload
    cases hc : s.currentChat with
    | none => exact absurd hc hcur
    | some cur =>
      cases outcome with
      | success resp =>
          intro m hm hrole
          rw [ProjectChatInterface.handleSubmit_success s cur nowMs nowIso resp
            hmsg hload2 hc] at hm
          simp only [List.drop_left] at hm
          rcases List.mem_cons.mp hm with h1 | h1
          · rw [h1]
          · rcases List.mem_cons.mp h1 with h2 | h2
            · rw [h2] at hrole
              exact absurd hrole (by simp)
            · exact absurd h2 (List.not_mem_nil m)
      | failure err =>
          intro m hm hrole
          rw [ProjectChatInterface.handleSubmit_failure s cur nowMs nowIso err
            hmsg hload2 hc] at hm
          simp only [List.drop_left] at hm
          rcases List.mem_cons.mp hm with h1 | h1
          · rw [h1]
          · rcases List.mem_cons.mp h1 with h2 | h2
            · rw [h2]
            · exact absurd h2 (List.not_mem_nil m)

/-- Witness for C7: the user message appended by a concrete submit has an
empty sources list. -/
theorem C7_user_messages_no_sources_witness :
    ({ id := "5", role := Role.user, content := "hi", sources := [],
       created_at := "t2" } : Message).sources = [] :=
  C7_user_messages_no_sources sampleChatState 5 "t2" (.success sampleResp)
    { id := "5", role := Role.user, content := "hi", sources := [],
      created_at := "t2" }
    (by decide) rfl

/-! ### Lemmas about the create-project form -/

theorem mem_of_mem_enumFrom {α : Type} :
    ∀ (l : List α) (n : Nat) (p : Nat × α), p ∈ List.enumFrom n l → p.2 ∈ l
  | [], _, _, h => absurd h (List.not_mem_nil _)
  | a :: t, n, p, h => by
    rw [List.enumFrom] at h
    rcases List.mem_cons.mp h with h1 | h1
    · rw [h1]
      exact List.mem_cons_self a t
    · exact List.mem_cons_of_mem a (mem_of_mem_enumFrom t (n + 1) p h1)

theorem urlsReachable_trimmed {l : List String}
    (h : CreateProject.UrlsReachable l) : ∀ u ∈ l, jsTrim u = u := by
  induction h with
  | init =>
      intro u hu
      rw [List.mem_singleton.mp hu]
      decide
  | add urls cur hr hcur ih =>
      intro u hu
      unfold CreateProject.addURLList at hu
      rcases List.mem_append.mp hu with h1 | h1
      · exact ih u (List.mem_of_mem_filter h1)
      · rw [List.mem_singleton.mp h1]
        exact jsTrim_idem cur
  | remove urls index hr ih =>
      intro u hu
      unfold CreateProject.removeURLList at hu
      obtain ⟨p, hp, rfl⟩ := List.mem_map.mp hu
      exact ih p.2 (mem_of_mem_enumFrom urls 0 p (List.mem_of_mem_filter hp))

theorem CreateProject.handleSubmit_request (s : CreateProject.State)
    (outcome : CreateProject.CreateOutcome) (req : CreateProjectRequest)
    (hreq : (CreateProject.handleSubmit s outcome).2 = some req) :
    jsTrim s.name ≠ "" ∧
    (s.urls.filter (fun u => jsTrim u ≠ "") ≠ [] ∨ jsTrim s.currentUrl ≠ "") ∧
    req.name = jsTrim s.name ∧ req.description = jsTrim s.description ∧
    req.urls =
      (if jsTrim s.currentUrl ≠ "" then
        s.urls.filter (fun u => jsTrim u ≠ "") ++ [jsTrim s.currentUrl]
      else s.urls.filter (fun u => jsTrim u ≠ "")) := by
  unfold CreateProject.handleSubmit at hreq
  by_cases h1 : jsTrim s.name = ""
  · rw [if_pos h1] at hreq
    exact absurd hreq (by simp)
  · rw [if_neg h1] at hreq
    dsimp only at hreq
    by_cases h2 : (s.urls.filter (fun u => jsTrim u ≠ "")).length = 0 ∧
        jsTrim s.currentUrl = ""
    · rw [if_pos h2] at hreq
      exact absurd hreq (by simp)
    · rw [if_neg h2] at hreq
      have hr : req =
          { name := jsTrim s.name, description := jsTrim s.description,
            urls := if jsTrim s.currentUrl ≠ "" then
                s.urls.filter (fun u => jsTrim u ≠ "") ++ [jsTrim s.currentUrl]
              else s.urls.filter (fun u => jsTrim u ≠ "") } := by
        cases outcome with
        | ok => exact (Option.some.inj hreq).symm
        | err m => exact (Option.some.inj hreq).symm
      refine ⟨h1, ?_, by rw [hr], by rw [hr], by rw [hr]⟩
      rcases not_and_or.mp h2 with h | h
      · exact Or.inl fun hnil => h (by rw [hnil]; rfl)
      · exact Or.inr h

/-! ### Claim C2 -/

/-- C2: submitting the create-project form with a name that is blank
after trimming issues no createProject request and leaves the form state
unchanged except for the validation error message; a request is issued
only when the trimmed name is non-empty (on both the regular and the
default-docs path). -/
theorem C2_blank_name_validation (s : CreateProject.State)
    (outcome : CreateProject.CreateOutcome) :
    (jsTrim s.name = "" →
      CreateProject.handleSubmit s outcome =
        ({ s with error := some "Project name is required" }, none) ∧
      CreateProject.handleUseDefaults s outcome =
        ({ s with error := some "Project name is required" }, none)) ∧
    (∀ req, (CreateProject.handleSubmit s outcome).2 = some req →
      jsTrim s.name ≠ "") ∧
    (∀ req, (CreateProject.handleUseDefaults s outcome).2 = some req →
      jsTrim s.name ≠ "") := by
  refine ⟨fun h => ⟨?_, ?_⟩, fun req hreq => ?_, fun req hreq h => ?_⟩
  · unfold CreateProject.handleSubmit
    rw [if_pos h]
  · unfold CreateProject.handleUseDefaults
    rw [if_pos h]
  · exact (CreateProject.handleSubmit_request s outcome req hreq).1
  · unfold CreateProject.handleUseDefaults at hreq
    rw [if_pos h] at hreq
    exact absurd hreq (by simp)

/-- Witness for C2 on a concrete blank-name form state. -/
theorem C2_blank_name_validation_witness :
    CreateProject.handleSubmit sampleBlankNameState .ok =
      ({ sampleBlankNameState with error := some "Project name is required" },
        none) :=
  ((C2_blank_name_validation sampleBlankNameState .ok).1 (by decide)).1

/-! ### Claim C8 -/

/-- C8: the two creation paths differ on empty URL lists: the regular
submit issues a request only when a non-blank URL is present (otherwise
it sets the at-least-one-URL error and sends nothing), while the
default-docs path issues a request with an empty URL list whenever the
trimmed name is non-blank. -/
theorem C8_two_creation_paths (s : CreateProject.State)
    (outcome : CreateProject.CreateOutcome) :
    (∀ req, (CreateProject.handleSubmit s outcome).2 = some req →
      s.urls.filter (fun u => jsTrim u ≠ "") ≠ [] ∨ jsTrim s.currentUrl ≠ "") ∧
    (jsTrim s.name ≠ "" → s.urls.filter (fun u => jsTrim u ≠ "") = [] →
      jsTrim s.currentUrl = "" →
      CreateProject.handleSubmit s outcome =
        ({ s with error := some "At least one URL is required" }, none)) ∧
    (jsTrim s.name ≠ "" →
      ∃ req, (CreateProject.handleUseDefaults s outcome).2 = some req ∧
        req.urls = []) := by
  refine ⟨fun req hreq =>
    (CreateProject.handleSubmit_request s outcome req hreq).2.1,
    fun hname hfilter hcur => ?_, fun hname => ?_⟩
  · unfold CreateProject.handleSubmit
    rw [if_neg hname]
    dsimp only
    rw [if_pos ⟨by rw [hfilter]; rfl, hcur⟩]
  · unfold CreateProject.handleUseDefaults
    rw [if_neg hname]
    cases outcome with
    | ok => exact ⟨_, rfl, rfl⟩
    | err m => exact ⟨_, rfl, rfl⟩

/-- Witness for C8: the default-docs path on a concrete named state
issues a request with an empty URL list. -/
theorem C8_two_creation_paths_witness :
    ∃ req, (CreateProject.handleUseDefaults sampleCreateState .ok).2 =
        some req ∧ req.urls = [] :=
  (C8_two_creation_paths sampleCreateState .ok).2.2 (by decide)

/-! ### Claim C9 -/

/-- C9: every URL string the create-project form passes to createProject
is non-empty and already whitespace-trimmed, for any urls list the
component can reach from its initial blank entry via addURL and
removeURL. -/
theorem C9_submitted_urls_trimmed (s : CreateProject.State)
    (outcome : CreateProject.CreateOutcome) (req : CreateProjectRequest)
    (hreach : CreateProject.UrlsReachable s.urls)
    (hreq : (CreateProject.handleSubmit s outcome).2 = some req) :
    ∀ u ∈ req.urls, u ≠ "" ∧ jsTrim u = u := by
  obtain ⟨-, -, -, -, hurls⟩ :=
    CreateProject.handleSubmit_request s outcome req hreq
  intro u hu
  rw [hurls] at hu
  have hmem : u ∈ s.urls.filter (fun v => jsTrim v ≠ "") ∨
      (u = jsTrim s.currentUrl ∧ jsTrim s.currentUrl ≠ "") := by
    by_cases hc : jsTrim s.currentUrl ≠ ""
    · rw [if_pos hc] at hu
      rcases List.mem_append.mp hu with h1 | h1
      · exact Or.inl h1
      · exact Or.inr ⟨List.mem_singleton.mp h1, hc⟩
    · rw [if_neg hc] at hu
      exact Or.inl hu
  rcases hmem with h1 | ⟨rfl, hne⟩
  · have h2 := List.mem_filter.mp h1
    have h3 : jsTrim u ≠ "" := by simpa using h2.2
    have h4 := urlsReachable_trimmed hreach u h2.1
    exact ⟨fun hu0 => h3 (by rw [hu0]; decide), h4⟩
  · exact ⟨hne, jsTrim_idem s.currentUrl⟩

/-- The urls list of the sample create-project state is reachable. -/
theorem sampleCreateState_urls_reachable :
    CreateProject.UrlsReachable sampleCreateState.urls := by
  have h : CreateProject.addURLList [""] "https://a" = ["https://a"] := by
    decide
  have h2 := CreateProject.UrlsReachable.add [""] "https://a"
    CreateProject.UrlsReachable.init (by decide)
  rw [h] at h2
  exact h2

/-- Witness for C9: the first URL of the request issued from the sample
state is non-empty and trimmed. -/
theorem C9_submitted_urls_trimmed_witness :
    ("https://a" : String) ≠ "" ∧ jsTrim "https://a" = "https://a" :=
  C9_submitted_urls_trimmed sampleCreateState .ok
    { name := "Docs", description := "d",
      urls := ["https://a", "https://b"] }
    sampleCreateState_urls_reachable (by decide) "https://a" (by decide)

/-! ### Claim C10 -/

/-- C10: when the URL input box holds non-blank text at the moment the
form is submitted, the issued request's URL list is the kept URLs
followed by that text trimmed as its last element, although Add was
never pressed for it. -/
theorem C10_pending_url_included (s : CreateProject.State)
    (outcome : CreateProject.CreateOutcome)
    (hname : jsTrim s.name ≠ "") (hcur : jsTrim s.currentUrl ≠ "") :
    ∃ req, (CreateProject.handleSubmit s outcome).2 = some req ∧
      req.urls = s.urls.filter (fun u => jsTrim u ≠ "") ++
        [jsTrim s.currentUrl] ∧
      req.urls.getLast? = some (jsTrim s.currentUrl) := by
  unfold CreateProject.handleSubmit
  rw [if_neg hname]
  dsimp only
  rw [if_neg (by rintro ⟨h1, h2⟩; exact hcur h2), if_pos hcur]
  cases outcome with
  | ok => exact ⟨_, rfl, rfl, List.getLast?_concat _⟩
  | err m => exact ⟨_, rfl, rfl, List.getLast?_concat _⟩

/-- Witness for C10 on the sample state with a pending untrimmed URL. -/
theorem C10_pending_url_included_witness :
    ∃ req, (CreateProject.handleSubmit sampleCreateState .ok).2 = some req ∧
      req.urls = sampleCreateState.urls.filter (fun u => jsTrim u ≠ "") ++
        [jsTrim sampleCreateState.currentUrl] ∧
      req.urls.getLast? = some (jsTrim sampleCreateState.currentUrl) :=
  C10_pending_url_included sampleCreateState .ok (by decide) (by decide)

end Ragnarok
